import Mathlib

/-!
Shallow embedding of the gomelon lifecycle/server core (packages `gomelon`,
`core`, `server`, `gows`): the multi-connector server start/stop logic, the
admin environment's builtin route registration and health-check handler, the
bootstrap command dispatch, the server command's staged run, and the filter
wiring of the server factory.

Go `error` values are modelled as `Option String` (`none` is Go `nil`); maps
delivered over channels or iterated by `range` are modelled as lists in the
order the program observes them.
-/

namespace Gomelon

/-! ## DefaultServer.Start / DefaultServer.Stop (package gows)

`Start` launches one goroutine per connector; each goroutine sends its
connector's terminal `start()` error on a single shared unbuffered channel
`errorChan`. The caller then loops `len(Connectors)` times receiving from
`errorChan`; on the first non-nil error it calls `server.Stop()` and returns
that error immediately, otherwise after all receives it returns `nil`.

We model one execution of `Start` by the list `delivered` of connector
results in channel-delivery order (one entry per launched connector, so
`delivered.length` is the number of connectors). Since `Start`'s receive
loop is the only reader of `errorChan` and the channel is unbuffered, a
result is consumed exactly when the loop performs a receive for it;
`consumed` counts those receives, and `stopCalls` counts invocations of
`server.Stop()`. -/

/-- Terminal result of one connector's `start()`: `none` is Go `nil`. -/
abbrev ConnResult := Option String

/-- Observable outcome of `DefaultServer.Start`: how many results were
received from the shared channel, how many times `Stop()` was invoked, and
the returned error. -/
structure StartObs where
  consumed : Nat
  stopCalls : Nat
  result : Option String
deriving DecidableEq, Repr

/-- The receive loop of `DefaultServer.Start` over the results in delivery
order: each `nil` result is consumed and the loop continues; the first
non-nil error causes `Stop()` and an immediate return of that error. -/
def serverStart : List ConnResult → StartObs
  | [] => ⟨0, 0, none⟩
  | none :: rest =>
      let o := serverStart rest
      ⟨o.consumed + 1, o.stopCalls, o.result⟩
  | some e :: _ => ⟨1, 1, some e⟩

/-- Listener-open flags of the server's connectors (`true` = the underlying
listener is open/serving). `DefaultServer.Stop`'s body is only a TODO
comment and `return nil`: it touches no connector and reports success. -/
def serverStop (listeners : List Bool) : List Bool × Option String :=
  (listeners, none)

end Gomelon

namespace Gomelon

/-- C1: if the first result delivered on the shared channel is a non-nil
error `e`, `Start` returns exactly `e` and invokes `Stop()` exactly once
before returning, for any number of remaining connectors. -/
theorem start_first_error_wins (e : String) (rest : List ConnResult) :
    (serverStart (some e :: rest)).result = some e ∧
    (serverStart (some e :: rest)).stopCalls = 1 := by
  constructor <;> rfl

/-- C2 counterexample: with two connectors whose results are delivered as
an error followed by a nil, `Start` consumes only one of the two results
sent to the shared channel, so not all results are consumed and the second
reporting goroutine stays blocked on the unbuffered channel. -/
theorem start_drops_late_results :
    (serverStart [some "listen tcp: address already in use", none]).consumed ≠
      [some "listen tcp: address already in use", (none : ConnResult)].length := by
  decide

/-- C2 amended: `Start` consumes results only up to and including the first
non-nil error. If the results before the first error are all nil, exactly
`pre.length + 1` results are consumed, the error is returned, and the
`post.length` results delivered afterwards are never consumed — their
reporting goroutines remain blocked on the unbuffered channel. -/
theorem start_consumes_up_to_first_error (pre post : List ConnResult) (e : String)
    (hpre : ∀ r ∈ pre, r = none) :
    (serverStart (pre ++ some e :: post)).consumed = pre.length + 1 ∧
    (serverStart (pre ++ some e :: post)).result = some e ∧
    (pre ++ some e :: post).length - (serverStart (pre ++ some e :: post)).consumed
      = post.length := by
  have main : (serverStart (pre ++ some e :: post)).consumed = pre.length + 1 ∧
      (serverStart (pre ++ some e :: post)).result = some e := by
    induction pre with
    | nil => exact ⟨rfl, rfl⟩
    | cons r rest ih =>
        have hr : r = none := hpre r (by simp)
        have hrest : ∀ x ∈ rest, x = none := fun x hx => hpre x (by simp [hx])
        obtain ⟨h1, h2⟩ := ih hrest
        subst hr
        exact ⟨by simpa [serverStart] using h1, by simpa [serverStart] using h2⟩
  obtain ⟨h1, h2⟩ := main
  have hlen : (pre ++ some e :: post).length = pre.length + 1 + post.length := by
    simp only [List.length_append, List.length_cons]
    omega
  exact ⟨h1, h2, by omega⟩

/-- Witness for `start_consumes_up_to_first_error` at a concrete delivery
order: one nil before the error, one nil after it. -/
theorem start_consumes_up_to_first_error_witness :
    (serverStart [none, some "bind failed", none]).consumed = 2 ∧
    (serverStart [none, some "bind failed", none]).result = some "bind failed" ∧
    ([none, some "bind failed", (none : ConnResult)]).length -
      (serverStart [none, some "bind failed", none]).consumed = 1 := by
  have h := start_consumes_up_to_first_error [none] [none] "bind failed"
    (by intro r hr; simpa using hr)
  simpa using h

/-- C3: evaluation of the `Stop()` stub at the failing input. A server with
one connector whose listener is open is completely unchanged by `Stop()`
(the listener stays open, nothing is attempted); `Stop()` still reports
`nil`, and a second `Stop()` call likewise changes nothing and reports
`nil`. -/
theorem stop_stub_closes_nothing :
    (serverStop [true]).1 = [true] ∧
    (serverStop [true]).2 = none ∧
    (serverStop (serverStop [true]).1).1 = [true] ∧
    (serverStop (serverStop [true]).1).2 = none := by
  refine ⟨rfl, rfl, rfl, rfl⟩

/-- C4: if every connector's `start()` returns nil, `Start` consumes all
`N` delivered results and returns nil, not an error. -/
theorem start_all_nil_returns_nil (delivered : List ConnResult)
    (h : ∀ r ∈ delivered, r = none) :
    (serverStart delivered).result = none ∧
    (serverStart delivered).consumed = delivered.length := by
  induction delivered with
  | nil => exact ⟨rfl, rfl⟩
  | cons r rest ih =>
      have hr : r = none := h r (by simp)
      have hrest : ∀ x ∈ rest, x = none := fun x hx => h x (by simp [hx])
      obtain ⟨h1, h2⟩ := ih hrest
      subst hr
      exact ⟨by simpa [serverStart] using h1, by simpa [serverStart] using h2⟩

/-- Witness for `start_all_nil_returns_nil` with two connectors that both
close gracefully. -/
theorem start_all_nil_returns_nil_witness :
    (serverStart [none, none]).result = none ∧
    (serverStart [none, none]).consumed = 2 := by
  have h := start_all_nil_returns_nil [none, none]
    (by intro r hr; simpa using hr)
  simpa using h

end Gomelon

namespace Gomelon

/-! ## HealthCheckHandler.ServeHTTP (package core; identical in gows)

`ServeHTTP` runs all registered health checks, producing a map
`name → *health.Result`; we model the map as the list of `(name, result)`
pairs in the order the `range` loop observes them. With no results it
writes status 501 (`http.StatusNotImplemented`) and the fixed body; if some
result is unhealthy it writes status 500 (`http.StatusInternalServerError`),
otherwise the implicit status of the first `Write` is 200; in both non-empty
cases the loop prints every result's name and healthy flag, plus its message
when non-empty and its cause when non-nil. -/

/-- One health check result: `healthy` flag, `message` (Go empty string when
absent) and `cause` (`none` is Go `nil`). -/
structure HealthResult where
  healthy : Bool
  message : String
  cause : Option String
deriving DecidableEq, Repr

/-- Rendering of a `%t` Go format verb. -/
def formatBool (b : Bool) : String := if b then "true" else "false"

/-- Source `isAllHealthy`: false as soon as one result is unhealthy. -/
def isAllHealthy : List (String × HealthResult) → Bool
  | [] => true
  | r :: rest => if !r.2.healthy then false else isAllHealthy rest

/-- The text the handler's loop writes for one `(name, result)` pair. -/
def renderHealthResult (name : String) (r : HealthResult) : String :=
  name ++ ":\n\tHealthy: " ++ formatBool r.healthy ++ "\n"
    ++ (if r.message ≠ "" then "\tMessage: " ++ r.message ++ "\n" else "")
    ++ (match r.cause with
        | some c => "\tCause: " ++ c ++ "\n"
        | none => "")

/-- Body written by the handler's `range` loop over all results. -/
def healthCheckBody : List (String × HealthResult) → String
  | [] => ""
  | r :: rest => renderHealthResult r.1 r.2 ++ healthCheckBody rest

/-- An HTTP response: status code and accumulated body. -/
structure HttpResponse where
  status : Nat
  body : String
deriving DecidableEq, Repr

/-- `HealthCheckHandler.ServeHTTP` on the list of health check results. -/
def serveHealthCheck (results : List (String × HealthResult)) : HttpResponse :=
  if results.length = 0 then
    { status := 501, body := "No health checks registered." }
  else if !isAllHealthy results then
    { status := 500, body := healthCheckBody results }
  else
    { status := 200, body := healthCheckBody results }

end Gomelon

namespace Gomelon

/-- The loop of `isAllHealthy` agrees with `List.all` of the healthy flags. -/
theorem isAllHealthy_eq_all (results : List (String × HealthResult)) :
    isAllHealthy results = results.all (fun r => r.2.healthy) := by
  induction results with
  | nil => rfl
  | cons r rest ih =>
      by_cases h : r.2.healthy <;> simp [isAllHealthy, h, ih]

/-- Each result's rendered fragment occurs inside the loop's body. -/
theorem renderHealthResult_infix_body (results : List (String × HealthResult)) :
    ∀ r ∈ results, ∃ p q,
      healthCheckBody results = p ++ renderHealthResult r.1 r.2 ++ q := by
  induction results with
  | nil => intro r hr; cases hr
  | cons x rest ih =>
      intro r hr
      rcases List.mem_cons.mp hr with h | h
      · subst h
        exact ⟨"", healthCheckBody rest, by simp [healthCheckBody]⟩
      · obtain ⟨p, q, hpq⟩ := ih r h
        refine ⟨renderHealthResult x.1 x.2 ++ p, q, ?_⟩
        simp [healthCheckBody, hpq, String.append_assoc]

/-- C5: `/healthcheck` returns 501 with the fixed body when no checks are
registered; with at least one check it returns 200 when all results are
healthy and 500 otherwise, and the body contains each check's rendered
fragment — its name and healthy flag, plus its message when non-empty and
its cause when non-nil. -/
theorem healthcheck_response (results : List (String × HealthResult)) :
    (results = [] →
      serveHealthCheck results = ⟨501, "No health checks registered."⟩) ∧
    (results ≠ [] →
      (serveHealthCheck results).status =
        (if results.all (fun r => r.2.healthy) then 200 else 500)) ∧
    (results ≠ [] →
      ∀ r ∈ results, ∃ p q,
        (serveHealthCheck results).body = p ++ renderHealthResult r.1 r.2 ++ q) := by
  refine ⟨?_, ?_, ?_⟩
  · intro h; subst h; rfl
  · intro h
    have hlen : ¬ results.length = 0 := by simpa using h
    rw [← isAllHealthy_eq_all]
    by_cases hall : isAllHealthy results <;> simp [serveHealthCheck, hlen, hall]
  · intro h r hr
    have hlen : ¬ results.length = 0 := by simpa using h
    have hbody : (serveHealthCheck results).body = healthCheckBody results := by
      by_cases hall : isAllHealthy results <;> simp [serveHealthCheck, hlen, hall]
    rw [hbody]
    exact renderHealthResult_infix_body results r hr

/-- Witness for `healthcheck_response`: the empty registry gives 501; one
unhealthy check named `db` with a message gives 500, with the rendered
fragment in the body. -/
theorem healthcheck_response_witness :
    serveHealthCheck [] = ⟨501, "No health checks registered."⟩ ∧
    (serveHealthCheck [("db", ⟨false, "connection refused", none⟩)]).status = 500 ∧
    (∃ p q, (serveHealthCheck [("db", ⟨false, "connection refused", none⟩)]).body =
      p ++ renderHealthResult "db" ⟨false, "connection refused", none⟩ ++ q) := by
  refine ⟨(healthcheck_response []).1 rfl, ?_, ?_⟩
  · have h := (healthcheck_response [("db", ⟨false, "connection refused", none⟩)]).2.1
      (by simp)
    simpa using h
  · exact (healthcheck_response [("db", ⟨false, "connection refused", none⟩)]).2.2
      (by simp) ("db", ⟨false, "connection refused", none⟩) (by simp)

end Gomelon

namespace Gomelon

/-! ## ServerCommand.Run (package gows)

`Run` performs, in order: `bootstrap.ConfigurationFactory.BuildConfiguration`,
`bootstrap.ServerFactory.BuildServer`, `bootstrap.run` (all bundles), and
`bootstrap.Application.Run`; after each step a non-nil error is returned
immediately. Only when all four succeed does it call `server.Start()` and
return its result. The four collaborator outcomes and the server's start
outcome are inputs of the model; `none` is a nil Go error. -/

/-- Errors reported by each stage of `ServerCommand.Run`, in the order the
code runs them, plus the result `server.Start()` would return. -/
structure CommandStages where
  configError : Option String
  buildServerError : Option String
  bundlesError : Option String
  appRunError : Option String
  startResult : Option String
deriving DecidableEq, Repr

/-- Outcome of `ServerCommand.Run`: the returned error and whether
`server.Start()` was called. -/
structure CommandOutcome where
  result : Option String
  startCalled : Bool
deriving DecidableEq, Repr

/-- `ServerCommand.Run`: each stage's error aborts the sequence; only after
all four stages succeed is `server.Start()` invoked. -/
def serverCommandRun (s : CommandStages) : CommandOutcome :=
  match s.configError with
  | some e => ⟨some e, false⟩
  | none =>
    match s.buildServerError with
    | some e => ⟨some e, false⟩
    | none =>
      match s.bundlesError with
      | some e => ⟨some e, false⟩
      | none =>
        match s.appRunError with
        | some e => ⟨some e, false⟩
        | none => ⟨s.startResult, true⟩

end Gomelon

namespace Gomelon

/-- C6: whenever configuration parsing, server build, bundle execution or
application setup reports a non-nil error, `ServerCommand.Run` returns the
first such error (in stage order) as its terminal result and never calls
`Server.Start()`. -/
theorem serverCommand_error_aborts_before_start (s : CommandStages)
    (h : s.configError.isSome ∨ s.buildServerError.isSome ∨
         s.bundlesError.isSome ∨ s.appRunError.isSome) :
    (serverCommandRun s).startCalled = false ∧
    (serverCommandRun s).result =
      s.configError.or (s.buildServerError.or (s.bundlesError.or s.appRunError)) ∧
    (serverCommandRun s).result ≠ none := by
  obtain ⟨c, b, u, a, r⟩ := s
  cases c <;> cases b <;> cases u <;> cases a <;>
    simp_all [serverCommandRun, Option.or]

/-- Witness for `serverCommand_error_aborts_before_start`: a run whose
bundle stage fails after configuration and server build succeed. -/
theorem serverCommand_error_aborts_before_start_witness :
    (serverCommandRun ⟨none, none, some "bundle failed", none, none⟩).startCalled
      = false ∧
    (serverCommandRun ⟨none, none, some "bundle failed", none, none⟩).result =
      (none : Option String).or ((none : Option String).or
        ((some "bundle failed").or none)) ∧
    (serverCommandRun ⟨none, none, some "bundle failed", none, none⟩).result
      ≠ none := by
  exact serverCommand_error_aborts_before_start
    ⟨none, none, some "bundle failed", none, none⟩ (by simp)

/-- Companion fact for C6 (not a claim theorem): when all four stages
succeed, `Start()` is called and its result is the command's result. -/
theorem serverCommand_success_starts (co bu bn ap : Option String) (r : Option String)
    (hc : co = none) (hb : bu = none) (hn : bn = none) (ha : ap = none) :
    (serverCommandRun ⟨co, bu, bn, ap, r⟩).startCalled = true ∧
    (serverCommandRun ⟨co, bu, bn, ap, r⟩).result = r := by
  subst hc hb hn ha; exact ⟨rfl, rfl⟩

end Gomelon

namespace Gomelon

/-! ## Run / printHelp (package gomelon)

`Run(app, args)` builds a bootstrap, lets the application register its
commands, and — when `args` is non-empty — scans the registered commands in
order for the first whose `Name()` equals `args[0]`, running it and
returning its result. In every other case it prints the help listing
(`println("Available commands:")` then one `println(name, ":", description)`
line per command) and returns nil. A registered command is modelled by its
name, its description onto the help line, and the error its `Run` returns. -/

/-- A registered bootstrap command: name, description, and the result its
`Run(bootstrap)` returns (`none` is a nil Go error). -/
structure Command where
  cmdName : String
  description : String
  runResult : Option String
deriving DecidableEq, Repr

/-- Source `printHelp`: the header line then one `name : description` line
per registered command (Go `println` separates its arguments by spaces). -/
def printHelp (commands : List Command) : List String :=
  "Available commands:" ::
    commands.map (fun c => c.cmdName ++ " : " ++ c.description)

/-- Outcome of `Run`: the lines printed, the command invoked (if any), and
the returned error. -/
structure RunOutcome where
  printed : List String
  invoked : Option Command
  result : Option String
deriving DecidableEq, Repr

/-- Source `Run`: with a non-empty argument vector, the first registered
command whose name equals `args[0]` is run and its result returned;
otherwise the help listing is printed and nil returned. -/
def bootstrapRun (commands : List Command) (args : List String) : RunOutcome :=
  match args with
  | [] => ⟨printHelp commands, none, none⟩
  | a :: _ =>
    match commands.find? (fun c => c.cmdName == a) with
    | some c => ⟨[], some c, c.runResult⟩
    | none => ⟨printHelp commands, none, none⟩

end Gomelon

namespace Gomelon

/-- C7: command dispatch is by exact match of the first argument. With no
arguments, or with a first argument equal to no registered command's name,
`Run` prints the header and every registered command's `name : description`
line and returns nil without invoking any command; when the first argument
equals some command's name, the first such command is invoked and its
result returned, with nothing printed. -/
theorem run_dispatch (commands : List Command) (a : String) (rest : List String) :
    (bootstrapRun commands [] =
      ⟨"Available commands:" ::
        commands.map (fun c => c.cmdName ++ " : " ++ c.description), none, none⟩) ∧
    ((∀ c ∈ commands, c.cmdName ≠ a) →
      bootstrapRun commands (a :: rest) =
        ⟨"Available commands:" ::
          commands.map (fun c => c.cmdName ++ " : " ++ c.description), none, none⟩) ∧
    (∀ pre c post, commands = pre ++ c :: post → (∀ x ∈ pre, x.cmdName ≠ a) →
      c.cmdName = a →
      bootstrapRun commands (a :: rest) = ⟨[], some c, c.runResult⟩) := by
  refine ⟨rfl, ?_, ?_⟩
  · intro h
    have hfind : commands.find? (fun c => c.cmdName == a) = none := by
      apply List.find?_eq_none.mpr
      intro c hc
      simpa using h c hc
    simp [bootstrapRun, hfind, printHelp]
  · intro pre c post hsplit hpre hc
    have hfind : commands.find? (fun x => x.cmdName == a) = some c := by
      subst hsplit
      induction pre with
      | nil => simp [List.find?, hc]
      | cons x xs ih =>
          have hx : (x.cmdName == a) = false := by
            simpa using hpre x (by simp)
          simp only [List.cons_append, List.find?, hx]
          exact ih (fun y hy => hpre y (by simp [hy]))
    simp [bootstrapRun, hfind]

/-- Witness for `run_dispatch` on a concrete registry of two commands: an
unknown first argument prints help and returns nil; the exact name of the
second command dispatches to it. -/
theorem run_dispatch_witness :
    (bootstrapRun [⟨"server", "Runs the application as an HTTP server", none⟩,
        ⟨"check", "Checks the configuration", some "bad"⟩] ("status" :: []) =
      ⟨["Available commands:", "server : Runs the application as an HTTP server",
        "check : Checks the configuration"], none, none⟩) ∧
    (bootstrapRun [⟨"server", "Runs the application as an HTTP server", none⟩,
        ⟨"check", "Checks the configuration", some "bad"⟩] ("check" :: []) =
      ⟨[], some ⟨"check", "Checks the configuration", some "bad"⟩, some "bad"⟩) := by
  constructor
  · have h := (run_dispatch [⟨"server", "Runs the application as an HTTP server", none⟩,
        ⟨"check", "Checks the configuration", some "bad"⟩] "status" []).2.1
      (by intro c hc; fin_cases hc <;> simp)
    simpa using h
  · exact (run_dispatch [⟨"server", "Runs the application as an HTTP server", none⟩,
        ⟨"check", "Checks the configuration", some "bad"⟩] "check" []).2.2
      [⟨"server", "Runs the application as an HTTP server", none⟩]
      ⟨"check", "Checks the configuration", some "bad"⟩ [] rfl
      (by intro x hx; fin_cases hx; simp) rfl

end Gomelon

namespace Gomelon

/-! ## commonFactory.AddFilters / getRequestLog (package server)

`getRequestLog` returns the no-op request log filter when the polymorphic
`RequestLog` configuration holds no value, the factory's `Build` result when
it holds a `RequestLogFactory`, and an `unsupported request log` error for
any other value. `AddFilters` obtains that filter, builds the panic recovery
filter, and appends first the request log filter and then the recovery
filter to every given handler's filter chain; an error from `getRequestLog`
is returned before any chain is touched. -/

/-- HTTP filters as the `server` package distinguishes them: the no-op
request log, a request log built by a configured factory, and the panic
recovery filter from `recovery.NewFilter()`. -/
inductive Filter where
  | noRequestLog
  | requestLog (tag : String)
  | recovery
deriving DecidableEq, Repr

/-- The polymorphic `RequestLog` configuration value: Go `nil`, a
`RequestLogFactory` together with its `Build` outcome, or some other
(unsupported) value described by its `%#v` rendering. -/
inductive RequestLogConfiguration where
  | nilValue
  | factory (buildResult : Except String Filter)
  | other (rendered : String)
deriving Repr

/-- Source `commonFactory.getRequestLog`. -/
def getRequestLog : RequestLogConfiguration → Except String Filter
  | .nilValue => .ok .noRequestLog
  | .factory r => r
  | .other d => .error ("server: unsupported request log " ++ d)

/-- An application handler, reduced to its filter chain (the only state
`AddFilters` touches); `FilterChain.Add` appends at the end. -/
structure Handler where
  filterChain : List Filter
deriving DecidableEq, Repr

/-- Source `commonFactory.AddFilters` on the handlers' filter chains. -/
def addFilters (cfg : RequestLogConfiguration) (handlers : List Handler) :
    Except String (List Handler) :=
  match getRequestLog cfg with
  | .error e => .error e
  | .ok requestLogFilter =>
      .ok (handlers.map (fun h =>
        { filterChain := (h.filterChain ++ [requestLogFilter]) ++ [Filter.recovery] }))

end Gomelon

namespace Gomelon

/-- C8: when the request log filter is obtained successfully, `AddFilters`
succeeds and extends every handler's filter chain — in the given order —
by exactly the request log filter followed by the panic recovery filter,
so each resulting chain ends in `[requestLogFilter, recovery]`. -/
theorem addFilters_appends_in_order (cfg : RequestLogConfiguration)
    (handlers : List Handler) (rlf : Filter)
    (hok : getRequestLog cfg = Except.ok rlf) :
    addFilters cfg handlers =
      Except.ok (handlers.map (fun h =>
        { filterChain := h.filterChain ++ [rlf, Filter.recovery] })) ∧
    ∀ out, addFilters cfg handlers = Except.ok out →
      ∀ h ∈ out, ∃ p, h.filterChain = p ++ [rlf, Filter.recovery] := by
  have heq : addFilters cfg handlers =
      Except.ok (handlers.map (fun h =>
        { filterChain := h.filterChain ++ [rlf, Filter.recovery] })) := by
    unfold addFilters
    rw [hok]
    simp
  refine ⟨heq, ?_⟩
  intro out hout h hh
  rw [heq] at hout
  obtain rfl : out = handlers.map (fun h =>
      { filterChain := h.filterChain ++ [rlf, Filter.recovery] }) := by
    simpa using hout.symm
  obtain ⟨h0, _, rfl⟩ := List.mem_map.mp hh
  exact ⟨h0.filterChain, rfl⟩

/-- Witness for `addFilters_appends_in_order`: a nil request log
configuration and two handlers, one with a non-empty chain. -/
theorem addFilters_appends_in_order_witness :
    addFilters .nilValue [⟨[]⟩, ⟨[.requestLog "x"]⟩] =
      Except.ok [⟨[.noRequestLog, .recovery]⟩,
        ⟨[.requestLog "x", .noRequestLog, .recovery]⟩] := by
  have h := (addFilters_appends_in_order .nilValue [⟨[]⟩, ⟨[.requestLog "x"]⟩]
    .noRequestLog rfl).1
  simpa using h

end Gomelon

namespace Gomelon

/-! ## AdminEnvironment (package core)

`NewAdminEnvironment` creates an environment with a fresh health-check
registry and the two default tasks `&GCTask{}` and `&LogTask{}`;
`AddTask` appends tasks to the environment's task slice. `onStarting`
registers the builtin handlers through the environment's `ServerHandler`:
`GET /ping`, `GET /runtime`, `GET /healthcheck`, the root menu at `GET /`,
and `POST /tasks/<name>` for each registered task; the `ServerHandler`
serves them under its context path. `GCTask.ServeHTTP` writes
`"Running GC...\n"`, calls `runtime.GC()`, then writes `"Done!\n"`. -/

/-- Source URI constants of the `core` package. -/
def pingUri : String := "/ping"

/-- Source URI constant for the runtime statistics page. -/
def runtimeUri : String := "/runtime"

/-- Source URI constant for the health check page. -/
def healthCheckUri : String := "/healthcheck"

/-- Source URI constant under which tasks are dispatched. -/
def tasksUri : String := "/tasks"

/-- Source name constant of the garbage collection task. -/
def gcTaskName : String := "gc"

/-- Source name constant of the log level task. -/
def logTaskName : String := "log"

/-- A registered admin task: the two builtin tasks of the `core` package or
an application-supplied one, identified by its `Name()`. -/
inductive Task where
  | gcTask
  | logTask
  | user (taskName : String)
deriving DecidableEq, Repr

/-- The `Name()` method of a task. -/
def Task.name : Task → String
  | .gcTask => gcTaskName
  | .logTask => logTaskName
  | .user n => n

/-- Modelled from the spec: the `core` package's `ServerHandler`
implementation (the route registrar behind `Handle(method, path, handler)`
and `PathPrefix()`) is not among the sources — only its interface and
callers are. Following the spec's contract that builtin registration is
idempotent and registers each fixed route once, the registrar is modelled
as a table of `(method, path)` keys where registering an already-present
route leaves the table unchanged. -/
def insertRoute (routes : List (String × String)) (k : String × String) :
    List (String × String) :=
  if k ∈ routes then routes else routes ++ [k]

/-- Registration of a list of routes in order. -/
def registerAll (routes : List (String × String)) (ks : List (String × String)) :
    List (String × String) :=
  ks.foldl insertRoute routes

/-- The admin environment: its handler's context path and route table
(standing for the wired `ServerHandler`) and its task slice. The
health-check registry is handled separately by `serveHealthCheck`. -/
@[ext]
structure AdminEnvironment where
  contextPath : String
  routes : List (String × String)
  tasks : List Task
deriving DecidableEq, Repr

/-- Registering one pattern through the environment's `ServerHandler`,
which serves it under its context path. -/
def AdminEnvironment.handle (env : AdminEnvironment) (method pattern : String) :
    AdminEnvironment :=
  { env with routes := insertRoute env.routes (method, env.contextPath ++ pattern) }

/-- Source `AdminEnvironment.AddTask`: appends to the task slice. -/
def AdminEnvironment.addTask (env : AdminEnvironment) (newTasks : List Task) :
    AdminEnvironment :=
  { env with tasks := env.tasks ++ newTasks }

/-- Source `NewAdminEnvironment`: a fresh environment that immediately
registers the two default tasks `&GCTask{}` and `&LogTask{}`. The context
path is the one of the `ServerHandler` wired in by the server factory. -/
def NewAdminEnvironment (ctx : String) : AdminEnvironment :=
  AdminEnvironment.addTask ⟨ctx, [], []⟩ [Task.gcTask, Task.logTask]

/-- Source `AdminEnvironment.onStarting`: registers the four fixed builtin
handlers and one `POST` route per registered task (log output elided). -/
def onStarting (env : AdminEnvironment) : AdminEnvironment :=
  env.tasks.foldl (fun e t => e.handle "POST" (tasksUri ++ "/" ++ t.name))
    ((((env.handle "GET" pingUri).handle "GET" runtimeUri).handle
        "GET" healthCheckUri).handle "GET" "/")

/-- The fixed route set C9 expects `onStarting` to register: the four
builtins under the context path plus one task route per registered task. -/
def builtinRoutes (env : AdminEnvironment) : List (String × String) :=
  [("GET", env.contextPath ++ pingUri),
   ("GET", env.contextPath ++ runtimeUri),
   ("GET", env.contextPath ++ healthCheckUri),
   ("GET", env.contextPath ++ "/")] ++
  env.tasks.map (fun t => ("POST", env.contextPath ++ (tasksUri ++ "/" ++ t.name)))

/-- Observable actions of `GCTask.ServeHTTP`: response writes and the
`runtime.GC()` call. -/
inductive AdminEvent where
  | write (s : String)
  | runGC
deriving DecidableEq, Repr

/-- Source `GCTask.ServeHTTP` as its sequence of observable actions. -/
def gcTaskServe : List AdminEvent :=
  [.write "Running GC...\n", .runGC, .write "Done!\n"]

end Gomelon

namespace Gomelon

/-- Routes already present survive one insertion. -/
theorem subset_insertRoute (routes : List (String × String)) (k : String × String) :
    routes ⊆ insertRoute routes k := by
  unfold insertRoute
  split
  · exact fun x hx => hx
  · exact fun x hx => List.mem_append_left _ hx

/-- Routes already present survive any registration sequence. -/
theorem subset_registerAll (ks : List (String × String)) :
    ∀ routes, routes ⊆ registerAll routes ks := by
  induction ks with
  | nil => intro routes; exact fun x hx => hx
  | cons k rest ih =>
      intro routes x hx
      exact ih (insertRoute routes k) (subset_insertRoute routes k hx)

/-- Every registered key ends up in the table. -/
theorem mem_registerAll (ks : List (String × String)) :
    ∀ routes k, k ∈ ks → k ∈ registerAll routes ks := by
  induction ks with
  | nil => intro _ _ h; cases h
  | cons a rest ih =>
      intro routes k hk
      rcases List.mem_cons.mp hk with h | h
      · subst h
        apply subset_registerAll rest (insertRoute routes k)
        unfold insertRoute
        split
        · assumption
        · exact List.mem_append_right _ (by simp)
      · exact ih (insertRoute routes a) k h

/-- Registering keys that are all present already changes nothing. -/
theorem registerAll_of_mem (ks : List (String × String)) :
    ∀ routes, (∀ k ∈ ks, k ∈ routes) → registerAll routes ks = routes := by
  induction ks with
  | nil => intro routes _; rfl
  | cons a rest ih =>
      intro routes h
      have ha : insertRoute routes a = routes := by
        unfold insertRoute
        rw [if_pos (h a (by simp))]
      show registerAll (insertRoute routes a) rest = routes
      rw [ha]
      exact ih routes (fun k hk => h k (by simp [hk]))

/-- Registering pairwise-fresh keys appends them in order. -/
theorem registerAll_fresh (ks : List (String × String)) :
    ∀ routes, (routes ++ ks).Nodup → registerAll routes ks = routes ++ ks := by
  induction ks with
  | nil => intro routes _; simp [registerAll]
  | cons a rest ih =>
      intro routes h
      have hdisj : routes.Disjoint (a :: rest) := (List.nodup_append.mp h).2.2
      have ha : a ∉ routes := fun hmem => hdisj hmem (by simp)
      have hstep : insertRoute routes a = routes ++ [a] := by
        unfold insertRoute
        rw [if_neg ha]
      show registerAll (insertRoute routes a) rest = routes ++ a :: rest
      rw [hstep]
      have hre : routes ++ a :: rest = (routes ++ [a]) ++ rest := by simp
      rw [hre] at h ⊢
      exact ih (routes ++ [a]) h

/-- The task-registration fold of `onStarting` keeps the context path and
task slice and registers exactly the task routes, in order. -/
theorem taskFold_components (ts : List Task) :
    ∀ e : AdminEnvironment,
      (ts.foldl (fun e t => e.handle "POST" (tasksUri ++ "/" ++ t.name)) e).contextPath
        = e.contextPath ∧
      (ts.foldl (fun e t => e.handle "POST" (tasksUri ++ "/" ++ t.name)) e).tasks
        = e.tasks ∧
      (ts.foldl (fun e t => e.handle "POST" (tasksUri ++ "/" ++ t.name)) e).routes
        = registerAll e.routes
            (ts.map (fun t => ("POST", e.contextPath ++ (tasksUri ++ "/" ++ t.name)))) := by
  induction ts with
  | nil => intro e; exact ⟨rfl, rfl, rfl⟩
  | cons t rest ih =>
      intro e
      obtain ⟨h1, h2, h3⟩ := ih (e.handle "POST" (tasksUri ++ "/" ++ t.name))
      refine ⟨?_, ?_, ?_⟩
      · simpa [AdminEnvironment.handle] using h1
      · simpa [AdminEnvironment.handle] using h2
      · simp only [List.foldl_cons, List.map_cons]
        rw [h3]
        rfl

/-- `onStarting` keeps the context path and task slice and registers
exactly the keys of `builtinRoutes` into the existing route table. -/
theorem onStarting_components (env : AdminEnvironment) :
    (onStarting env).contextPath = env.contextPath ∧
    (onStarting env).tasks = env.tasks ∧
    (onStarting env).routes = registerAll env.routes (builtinRoutes env) := by
  obtain ⟨h1, h2, h3⟩ := taskFold_components env.tasks
    ((((env.handle "GET" pingUri).handle "GET" runtimeUri).handle
        "GET" healthCheckUri).handle "GET" "/")
  refine ⟨?_, ?_, ?_⟩
  · simpa [AdminEnvironment.handle] using h1
  · simpa [AdminEnvironment.handle] using h2
  · unfold onStarting
    rw [h3]
    rfl

end Gomelon

namespace Gomelon

/-- C9: starting from an empty route table, when the fixed builtin routes
(under the context path) and the task routes are pairwise distinct,
`onStarting` registers exactly that fixed route set; and running
`onStarting` a second time leaves the whole environment — route table
included — unchanged. -/
theorem onStarting_registers_builtins (env : AdminEnvironment)
    (h1 : env.routes = []) (h2 : (builtinRoutes env).Nodup) :
    (onStarting env).routes = builtinRoutes env ∧
    onStarting (onStarting env) = onStarting env := by
  obtain ⟨hc, ht, hr⟩ := onStarting_components env
  constructor
  · rw [hr, h1]
    simpa using registerAll_fresh (builtinRoutes env) [] (by simpa using h2)
  · obtain ⟨hc2, ht2, hr2⟩ := onStarting_components (onStarting env)
    have hkeys : builtinRoutes (onStarting env) = builtinRoutes env := by
      unfold builtinRoutes
      rw [hc, ht]
    have hmem : ∀ k ∈ builtinRoutes env, k ∈ (onStarting env).routes := by
      intro k hk
      rw [hr]
      exact mem_registerAll _ _ k hk
    have hroutes : (onStarting (onStarting env)).routes = (onStarting env).routes := by
      rw [hr2, hkeys]
      exact registerAll_of_mem _ _ hmem
    exact AdminEnvironment.ext hc2 hroutes ht2

/-- Witness for `onStarting_registers_builtins` on the freshly created
admin environment (two default tasks) under the context path `/admin`. -/
theorem onStarting_registers_builtins_witness :
    (onStarting (NewAdminEnvironment "/admin")).routes =
      builtinRoutes (NewAdminEnvironment "/admin") ∧
    onStarting (onStarting (NewAdminEnvironment "/admin")) =
      onStarting (NewAdminEnvironment "/admin") :=
  onStarting_registers_builtins (NewAdminEnvironment "/admin") rfl (by decide)

/-- C10: a freshly created admin environment already holds exactly the two
default tasks named `gc` and `log`, so with no application tasks added,
builtin registration exposes the routes `POST <ctx>/tasks/gc` and
`POST <ctx>/tasks/log`; and the `gc` task writes its running marker, forces
a garbage collection, then writes its done marker, in that order. -/
theorem default_tasks_exposed (ctx : String) :
    (NewAdminEnvironment ctx).tasks.map Task.name = [gcTaskName, logTaskName] ∧
    ("POST", ctx ++ "/tasks/gc") ∈ (onStarting (NewAdminEnvironment ctx)).routes ∧
    ("POST", ctx ++ "/tasks/log") ∈ (onStarting (NewAdminEnvironment ctx)).routes ∧
    gcTaskServe = [AdminEvent.write "Running GC...\n", AdminEvent.runGC,
      AdminEvent.write "Done!\n"] := by
  obtain ⟨hc, ht, hr⟩ := onStarting_components (NewAdminEnvironment ctx)
  refine ⟨rfl, ?_, ?_, rfl⟩
  · rw [hr]
    apply mem_registerAll
    have h5 : (("POST", ctx ++ "/tasks/gc") : String × String) =
        ("POST", (NewAdminEnvironment ctx).contextPath ++
          (tasksUri ++ "/" ++ Task.name Task.gcTask)) := rfl
    rw [h5]
    exact List.mem_append_right _
      (List.mem_map.mpr ⟨Task.gcTask,
        by simp [NewAdminEnvironment, AdminEnvironment.addTask], rfl⟩)
  · rw [hr]
    apply mem_registerAll
    have h5 : (("POST", ctx ++ "/tasks/log") : String × String) =
        ("POST", (NewAdminEnvironment ctx).contextPath ++
          (tasksUri ++ "/" ++ Task.name Task.logTask)) := rfl
    rw [h5]
    exact List.mem_append_right _
      (List.mem_map.mpr ⟨Task.logTask,
        by simp [NewAdminEnvironment, AdminEnvironment.addTask], rfl⟩)

end Gomelon
